import Mathlib

/-!
Verification development for the Carrefour ingredient-search agent.

The Python sources `main.py` and `search_handler.py` are shallowly embedded
below: pure helpers become Lean functions, the external collaborators
(OpenAI chat completion, Serper HTTP search, the file sink, the Lexia
streaming sink) become an explicit environment record, and the observable
behaviour of one turn of `process_message` becomes the list of sink events
it emits.  Python exceptions are modelled with `Option`/`Except`; Python
truthiness of optional strings is modelled explicitly.

Unicode caveats of the embedding (they do not affect any theorem below):
`pyLower` lowercases ASCII letters only, `pyStrip` strips the ASCII
whitespace characters Python strips, and `pyStr`/`pyRepr` reproduce
Python `str` exactly on strings, integers, booleans and `None` while
approximating the textual form of floats and nested containers.
-/

/-! ## Python string semantics helpers -/

/-- The whitespace characters stripped by Python `str.strip()` (ASCII part). -/
def pyWs (c : Char) : Bool :=
  c = ' ' || c = '\t' || c = '\n' || c = '\r' || c = '\x0b' || c = '\x0c'

/-- Python `str.strip()` on the character list. -/
def pyStripList (l : List Char) : List Char :=
  ((l.dropWhile pyWs).reverse.dropWhile pyWs).reverse

/-- Python `str.strip()` (ASCII whitespace). -/
def pyStrip (s : String) : String :=
  String.mk (pyStripList s.data)

/-- Python `str.lower()` (ASCII letters; non-ASCII letters are kept as-is). -/
def pyLower (s : String) : String :=
  String.mk (s.data.map Char.toLower)

/-- Truthiness of a Python value that is either a string or `None`:
`None` and the empty string are falsy. -/
def pyTruthyOptStr (o : Option String) : Bool :=
  match o with
  | none => false
  | some s => s != ""

/-- Python `a or b` on string-or-`None` values. -/
def pyOrOptStr (a b : Option String) : Option String :=
  if pyTruthyOptStr a then a else b

/-- Python `sep.join(parts)`. -/
def pyJoin (sep : String) : List String → String
  | [] => ""
  | [a] => a
  | a :: b :: rest => a ++ sep ++ pyJoin sep (b :: rest)

/-- Bool test for `needle` being a contiguous sublist of `hay`
(Python substring containment `needle in hay`). -/
def listHasInfix (needle : List Char) : List Char → Bool
  | [] => needle.isPrefixOf []
  | c :: rest => needle.isPrefixOf (c :: rest) || listHasInfix needle rest

/-- Python substring containment `needle in hay`. -/
def strContainsSub (hay needle : String) : Bool :=
  listHasInfix needle.data hay.data

/-- The line-break characters recognised by Python `str.splitlines()`. -/
def pyLineBreak (c : Char) : Bool :=
  c = '\n' || c = '\r' || c = '\x0b' || c = '\x0c' ||
  c = '\x1c' || c = '\x1d' || c = '\x1e' || c = '\x85' ||
  c = '\u2028' || c = '\u2029'

/-- Worker for `pySplitLines`: `acc` holds the current line reversed. -/
def pySplitLinesGo : List Char → List Char → List String
  | [], acc => if acc = [] then [] else [String.mk acc.reverse]
  | '\r' :: '\n' :: rest, acc => String.mk acc.reverse :: pySplitLinesGo rest []
  | c :: rest, acc =>
    if pyLineBreak c then String.mk acc.reverse :: pySplitLinesGo rest []
    else pySplitLinesGo rest (c :: acc)

/-- Python `str.splitlines()` (no trailing empty line for a trailing break). -/
def pySplitLines (s : String) : List String :=
  pySplitLinesGo s.data []

/-! ## JSON values and a model of Python `json.loads`

`main.py` calls `json.loads` on model output.  The value model keeps
integer literals as `Int` (Python prints them identically) and other
numeric literals (floats, `NaN`, `Infinity`) as their lexeme. -/

inductive JsonValue where
  | null : JsonValue
  | bool (b : Bool) : JsonValue
  | int (n : Int) : JsonValue
  | numRaw (lexeme : String) : JsonValue
  | str (s : String) : JsonValue
  | arr (elems : List JsonValue) : JsonValue
  | obj (fields : List (String × JsonValue)) : JsonValue

/-- JSON inter-token whitespace accepted by Python `json.loads`. -/
def jsonWs (c : Char) : Bool :=
  c = ' ' || c = '\t' || c = '\n' || c = '\r'

def skipWs (l : List Char) : List Char :=
  l.dropWhile jsonWs

/-- The value of one hexadecimal digit (`0-9a-fA-F`), by code point. -/
def hexVal (c : Char) : Option Nat :=
  let n := c.toNat
  if 48 ≤ n ∧ n ≤ 57 then some (n - 48)
  else if 97 ≤ n ∧ n ≤ 102 then some (n - 87)
  else if 65 ≤ n ∧ n ≤ 70 then some (n - 55)
  else none

/-- The code point named by the four hex digits of a `\uXXXX` escape. -/
def hex4 (h1 h2 h3 h4 : Char) : Option Nat :=
  match hexVal h1, hexVal h2, hexVal h3, hexVal h4 with
  | some a, some b, some c, some d => some (a * 4096 + b * 256 + c * 16 + d)
  | _, _, _, _ => none

/-- Body of a JSON string after the opening quote.  Escapes follow
`json.loads` (strict mode rejects raw control characters); a surrogate
pair of `\uXXXX` escapes is combined; a lone surrogate is approximated
by `Char.ofNat`'s fallback since Lean chars are scalar values.
`fuel` only bounds recursion; every step consumes at least one character,
so callers pass `length + 1` and the `fuel = 0` case is unreachable. -/
def parseStringBodyF : Nat → List Char → List Char → Option (String × List Char)
  | 0, _, _ => none
  | _ + 1, [], _ => none
  | _ + 1, '"' :: rest, acc => some (String.mk acc.reverse, rest)
  | fuel + 1, '\\' :: 'u' :: h1 :: h2 :: h3 :: h4 :: rest, acc =>
    match hex4 h1 h2 h3 h4 with
    | none => none
    | some n =>
      if 0xD800 ≤ n ∧ n ≤ 0xDBFF then
        match rest with
        | '\\' :: 'u' :: k1 :: k2 :: k3 :: k4 :: rest2 =>
          match hex4 k1 k2 k3 k4 with
          | some m =>
            if 0xDC00 ≤ m ∧ m ≤ 0xDFFF then
              parseStringBodyF fuel rest2
                (Char.ofNat (0x10000 + (n - 0xD800) * 0x400 + (m - 0xDC00)) :: acc)
            else parseStringBodyF fuel rest (Char.ofNat n :: acc)
          | none => parseStringBodyF fuel rest (Char.ofNat n :: acc)
        | _ => parseStringBodyF fuel rest (Char.ofNat n :: acc)
      else parseStringBodyF fuel rest (Char.ofNat n :: acc)
  | fuel + 1, '\\' :: e :: rest, acc =>
    match e with
    | '"' => parseStringBodyF fuel rest ('"' :: acc)
    | '\\' => parseStringBodyF fuel rest ('\\' :: acc)
    | '/' => parseStringBodyF fuel rest ('/' :: acc)
    | 'b' => parseStringBodyF fuel rest ('\x08' :: acc)
    | 'f' => parseStringBodyF fuel rest ('\x0c' :: acc)
    | 'n' => parseStringBodyF fuel rest ('\n' :: acc)
    | 'r' => parseStringBodyF fuel rest ('\r' :: acc)
    | 't' => parseStringBodyF fuel rest ('\t' :: acc)
    | _ => none
  | fuel + 1, c :: rest, acc =>
    if c.toNat < 0x20 then none else parseStringBodyF fuel rest (c :: acc)

/-- Body of a JSON string after the opening quote. -/
def parseStringBody (l : List Char) (acc : List Char) : Option (String × List Char) :=
  parseStringBodyF (l.length + 1) l acc

/-- The numeric value of a run of decimal digit characters. -/
def digitsToNat (l : List Char) : Nat :=
  l.foldl (fun acc c => 10 * acc + (c.toNat - 48)) 0

/-- Worker for `parseNumber` after the optional leading minus sign. -/
def parseNumberCore (neg : Bool) (cs1 : List Char) : Option (JsonValue × List Char) :=
  let intPart := cs1.takeWhile Char.isDigit
  let rest1 := cs1.dropWhile Char.isDigit
  match intPart with
  | [] => none
  | d :: ds =>
    if d = '0' ∧ ds ≠ [] then none
    else
      let (fracPart, rest2) := match rest1 with
        | '.' :: r =>
          let fs := r.takeWhile Char.isDigit
          if fs = [] then (([] : List Char), rest1)
          else ('.' :: fs, r.dropWhile Char.isDigit)
        | _ => ([], rest1)
      let (expPart, rest3) := match rest2 with
        | 'e' :: '+' :: r =>
          let es := r.takeWhile Char.isDigit
          if es = [] then (([] : List Char), rest2)
          else ('e' :: '+' :: es, r.dropWhile Char.isDigit)
        | 'e' :: '-' :: r =>
          let es := r.takeWhile Char.isDigit
          if es = [] then (([] : List Char), rest2)
          else ('e' :: '-' :: es, r.dropWhile Char.isDigit)
        | 'e' :: r =>
          let es := r.takeWhile Char.isDigit
          if es = [] then (([] : List Char), rest2)
          else ('e' :: es, r.dropWhile Char.isDigit)
        | 'E' :: '+' :: r =>
          let es := r.takeWhile Char.isDigit
          if es = [] then (([] : List Char), rest2)
          else ('E' :: '+' :: es, r.dropWhile Char.isDigit)
        | 'E' :: '-' :: r =>
          let es := r.takeWhile Char.isDigit
          if es = [] then (([] : List Char), rest2)
          else ('E' :: '-' :: es, r.dropWhile Char.isDigit)
        | 'E' :: r =>
          let es := r.takeWhile Char.isDigit
          if es = [] then (([] : List Char), rest2)
          else ('E' :: es, r.dropWhile Char.isDigit)
        | _ => ([], rest2)
      if fracPart = [] ∧ expPart = [] then
        let v : Int := Int.ofNat (digitsToNat intPart)
        some (.int (if neg then -v else v), rest1)
      else
        let lexeme := String.mk
          ((if neg then ['-'] else []) ++ intPart ++ fracPart ++ expPart)
        some (.numRaw lexeme, rest3)

/-- One numeric literal at the head of `cs`, following the `json` number
grammar `-?(0|[1-9]digits)(.digits)?([eE][+-]?digits)?`.  A longer digit
run with a leading zero is rejected, which agrees with `json.loads` at
the whole-document level (the scanner would match only the `0` and the
decoder would then fail on the following digit). -/
def parseNumber : List Char → Option (JsonValue × List Char)
  | '-' :: r => parseNumberCore true r
  | cs => parseNumberCore false cs

mutual

/-- One JSON value at the head of `cs` (no leading whitespace), with the
remaining characters.  `fuel` only bounds recursion; `pyJsonLoads` supplies
more fuel than any input can consume. -/
def parseValue : Nat → List Char → Option (JsonValue × List Char)
  | 0, _ => none
  | fuel + 1, cs =>
    match cs with
    | 'n' :: 'u' :: 'l' :: 'l' :: r => some (.null, r)
    | 't' :: 'r' :: 'u' :: 'e' :: r => some (.bool true, r)
    | 'f' :: 'a' :: 'l' :: 's' :: 'e' :: r => some (.bool false, r)
    | 'N' :: 'a' :: 'N' :: r => some (.numRaw "NaN", r)
    | 'I' :: 'n' :: 'f' :: 'i' :: 'n' :: 'i' :: 't' :: 'y' :: r =>
      some (.numRaw "Infinity", r)
    | '-' :: 'I' :: 'n' :: 'f' :: 'i' :: 'n' :: 'i' :: 't' :: 'y' :: r =>
      some (.numRaw "-Infinity", r)
    | '"' :: r =>
      match parseStringBody r [] with
      | some (s, r2) => some (.str s, r2)
      | none => none
    | '[' :: r => parseArrayItems fuel (skipWs r)
    | '{' :: r => parseObjItems fuel (skipWs r)
    | _ => parseNumber cs

/-- Items of a JSON array after the opening bracket (whitespace skipped). -/
def parseArrayItems : Nat → List Char → Option (JsonValue × List Char)
  | 0, _ => none
  | fuel + 1, cs =>
    match cs with
    | ']' :: r => some (.arr [], r)
    | _ =>
      match parseValue fuel cs with
      | none => none
      | some (v, r) => parseArrayTail fuel [v] (skipWs r)

/-- Remaining items of a JSON array; `acc` holds parsed items reversed. -/
def parseArrayTail : Nat → List JsonValue → List Char → Option (JsonValue × List Char)
  | 0, _, _ => none
  | fuel + 1, acc, cs =>
    match cs with
    | ']' :: r => some (.arr acc.reverse, r)
    | ',' :: r =>
      match parseValue fuel (skipWs r) with
      | none => none
      | some (v, r2) => parseArrayTail fuel (v :: acc) (skipWs r2)
    | _ => none

/-- Members of a JSON object after the opening brace (whitespace skipped). -/
def parseObjItems : Nat → List Char → Option (JsonValue × List Char)
  | 0, _ => none
  | fuel + 1, cs =>
    match cs with
    | '}' :: r => some (.obj [], r)
    | '"' :: r =>
      match parseStringBody r [] with
      | none => none
      | some (k, r2) =>
        match skipWs r2 with
        | ':' :: r3 =>
          match parseValue fuel (skipWs r3) with
          | none => none
          | some (v, r4) => parseObjTail fuel [(k, v)] (skipWs r4)
        | _ => none
    | _ => none

/-- Remaining members of a JSON object; `acc` holds parsed pairs reversed. -/
def parseObjTail : Nat → List (String × JsonValue) → List Char → Option (JsonValue × List Char)
  | 0, _, _ => none
  | fuel + 1, acc, cs =>
    match cs with
    | '}' :: r => some (.obj acc.reverse, r)
    | ',' :: r =>
      match skipWs r with
      | '"' :: r2 =>
        match parseStringBody r2 [] with
        | none => none
        | some (k, r3) =>
          match skipWs r3 with
          | ':' :: r4 =>
            match parseValue fuel (skipWs r4) with
            | none => none
            | some (v, r5) => parseObjTail fuel ((k, v) :: acc) (skipWs r5)
          | _ => none
      | _ => none
    | _ => none

end

/-- Model of Python `json.loads text`, as `none` where Python raises.
Leading and trailing whitespace is skipped; trailing garbage is rejected. -/
def pyJsonLoads (t : String) : Option JsonValue :=
  match parseValue (2 * t.length + 8) (skipWs t.data) with
  | some (v, rest) => if skipWs rest = [] then some v else none
  | none => none

mutual

/-- Python `str(value)` on a decoded JSON value.  Exact for strings,
integers, booleans and `None`; approximated by the source lexeme for
floats, and by an unescaped rendering for nested containers. -/
def pyStr : JsonValue → String
  | .null => "None"
  | .bool true => "True"
  | .bool false => "False"
  | .int n => toString n
  | .numRaw s => s
  | .str s => s
  | .arr l => "[" ++ pyJoin ", " (pyReprList l) ++ "]"
  | .obj fs => "\x7b" ++ pyJoin ", " (pyReprFields fs) ++ "\x7d"

/-- Python `repr(value)` on a decoded JSON value (approximated: string
escaping inside quotes is not reproduced). -/
def pyRepr : JsonValue → String
  | .str s => "\x27" ++ s ++ "\x27"
  | .null => "None"
  | .bool true => "True"
  | .bool false => "False"
  | .int n => toString n
  | .numRaw s => s
  | .arr l => "[" ++ pyJoin ", " (pyReprList l) ++ "]"
  | .obj fs => "\x7b" ++ pyJoin ", " (pyReprFields fs) ++ "\x7d"

def pyReprList : List JsonValue → List String
  | [] => []
  | v :: r => pyRepr v :: pyReprList r

def pyReprFields : List (String × JsonValue) → List String
  | [] => []
  | (k, v) :: r => ("\x27" ++ k ++ "\x27: " ++ pyRepr v) :: pyReprFields r

end

/-- Lookup of a key in a decoded JSON object, with Python `dict` semantics:
a duplicated key keeps its last binding. -/
def objLookup (fields : List (String × JsonValue)) (key : String) : Option JsonValue :=
  (fields.reverse.find? (fun kv => kv.1 == key)).map (·.2)

/-! ## main.py: `_extract_json_array` (lines 174-185) and normalisation -/

/-- The first match of the regex `\[.*\]` under `re.DOTALL`
(the `re.search` in `_extract_json_array`): the slice running from the
first `[` that has a `]` somewhere after it, greedily through the last
`]` of the text. -/
def bracketSlice (t : String) : Option String :=
  match t.data.dropWhile (fun c => c != '[') with
  | [] => none
  | b :: tail =>
    match (b :: tail).reverse.dropWhile (fun c => c != ']') with
    | [] => none
    | r :: rtail => some (String.mk ((r :: rtail).reverse))

/-- `_extract_json_array` (main.py lines 174-185): try `json.loads` on the
whole text; on failure try the bracketed substring; on any further failure
return the empty Python list.  Note the first attempt is a general JSON
parse, so a well-formed non-array document is returned unchanged. -/
def _extract_json_array (text : String) : JsonValue :=
  match pyJsonLoads text with
  | some v => v
  | none =>
    match bracketSlice text with
    | some sub =>
      match pyJsonLoads sub with
      | some v => v
      | none => .arr []
    | none => .arr []

/-- `if not isinstance(ingredients, list): ingredients = []`
(main.py lines 188-189), viewing the result as a list of elements. -/
def coerceToList : JsonValue → List JsonValue
  | .arr l => l
  | _ => []

/-- Acceptance of one parsed element by the normalisation loop
(main.py lines 192-198): a plain string, or an object carrying a
`name` field read through `str(...)`; the name is stripped. -/
def acceptName : JsonValue → Option String
  | .str s => some (pyStrip s)
  | .obj fields =>
    match objLookup fields "name" with
    | some v => some (pyStrip (pyStr v))
    | none => none
  | _ => none

/-- The normalisation loop of main.py lines 190-201; `seen` holds the
lowercased names already emitted. -/
def normalizeGo : List JsonValue → List String → List String
  | [], _ => []
  | item :: rest, seen =>
    match acceptName item with
    | none => normalizeGo rest seen
    | some name =>
      if name ≠ "" ∧ pyLower name ∉ seen then
        name :: normalizeGo rest (pyLower name :: seen)
      else normalizeGo rest seen

/-- The normalised ingredient list produced from the parsed elements. -/
def normalizeItems (items : List JsonValue) : List String :=
  normalizeGo items []

/-- First-seen deduplication by a key function, spec-side description of
both deduplication loops ("deduplicate case-insensitively while
preserving first-seen order", "deduplicate by exact string match"). -/
def dedupGo (key : String → String) : List String → List String → List String
  | [], _ => []
  | s :: rest, seen =>
    if key s ∈ seen then dedupGo key rest seen
    else s :: dedupGo key rest (key s :: seen)

/-! ## The turn environment, sink events and `process_message` -/

structure Variable where
  name : String
  value : String
deriving DecidableEq

/-- Modelled from the spec: the `Variables` helper of the external
`lexia` package is missing from the sources; per the spec it is "a
mapping from variable name to secret value (e.g. language-model key,
search-provider key), looked up by exact name", with absence a distinct
condition.  `varsGet` returns the value of the first variable carrying
the name, or `none`. -/
def varsGet (vars : List Variable) (key : String) : Option String :=
  (vars.find? (fun v => v.name == key)).map (·.value)

/-- The fields of the inbound `ChatMessage` that `process_message` reads. -/
structure ChatMessage where
  thread_id : String
  message : String
  response_uuid : String
  model : String
  «variables» : List Variable
deriving DecidableEq

/-- One observable call made during a turn: the three streaming-sink
operations of the spec, plus markers for consulting the language model
and the search provider. -/
inductive Event where
  | streamChunk (text : String) : Event
  | completeResponse (text : String) : Event
  | sendError (message : String) : Event
  | llmCall : Event
  | searchCall (query : String) : Event
deriving DecidableEq

/-- The two terminal sink calls (`complete_response` / `send_error`). -/
def isTerminal : Event → Bool
  | .completeResponse _ => true
  | .sendError _ => true
  | _ => false

def isStreamChunk : Event → Bool
  | .streamChunk _ => true
  | _ => false

/-- Outcomes of the external calls one turn may make: the chat-completion
call (its content may be `None`), the `/tmp/ingredients.txt` write, and
one `serper_first_link` web search per query.  `.error e` stands for the
call raising an exception rendered as the string `e`. -/
structure Env where
  llm : Except String (Option String)
  fileWrite : Except String Unit
  serper : String → Except String (Option String)

def missingKeyMsg : String :=
  "Sorry, the OpenAI API key is missing or empty. From menu right go to admin mode, then agents and edit the agent in last section you can set the openai key."

def analyzingMsg : String := "🔎 Analizando tu mensaje...\n"

def greetings : List String :=
  ["hi", "hello", "hola", "hey", "buenas", "buenos días", "buenas tardes", "buenas noches"]

def greetReply : String :=
  "👋 Hola, dime qué plato quieres preparar (por ejemplo: \x27tortilla de patata\x27)."

def noIngredientsMsg : String :=
  "No pude identificar ingredientes. Por favor, especifica el plato con más detalle."

/-- The message delivered through `send_error` by the top-level handler
(main.py lines 248-251). -/
def errorWrap (e : String) : String := "Error processing message: " ++ e

/-- `raw_content = completion.choices[0].message.content or "[]"`. -/
def rawContentOf (content : Option String) : String :=
  match content with
  | none => "[]"
  | some s => if s = "" then "[]" else s

def carrefourQuery (ing : String) : String := ing ++ " site:carrefour.es"

/-- The link obtained for one ingredient: `serper_first_link` under the
per-item `try/except` of main.py lines 223-228 (`None` when the call
raises). -/
def carrefourLink (env : Env) (ing : String) : Option String :=
  match env.serper (carrefourQuery ing) with
  | .error _ => none
  | .ok l => l

/-- Events of one iteration of the Carrefour loop (main.py lines 221-234):
a progress chunk, the provider call, then the per-item result chunk
(link, or "No encontrado" when the link is `None` or empty). -/
def carrefourStepEvents (env : Env) (ing : String) : List Event :=
  .streamChunk ("🔎 Buscando en Carrefour: " ++ ing ++ "\n") ::
  .searchCall (carrefourQuery ing) ::
  (if pyTruthyOptStr (carrefourLink env ing) then
    [.streamChunk ("➡️ " ++ ing ++ ": " ++ (carrefourLink env ing).getD "" ++ "\n")]
  else
    [.streamChunk ("➡️ " ++ ing ++ ": No encontrado\n")])

/-- The `results_lines` entry appended for one ingredient. -/
def carrefourStepLine (env : Env) (ing : String) : String :=
  if pyTruthyOptStr (carrefourLink env ing) then
    "- " ++ ing ++ ": " ++ (carrefourLink env ing).getD ""
  else
    "- " ++ ing ++ ": No encontrado"

/-- The per-ingredient Carrefour loop (main.py lines 220-234): the events
emitted and the `results_lines` entries accumulated, in step. -/
def carrefourLoop (env : Env) : List String → List Event × List String
  | [] => ([], [])
  | ing :: rest =>
    let r := carrefourLoop env rest
    (carrefourStepEvents env ing ++ r.1, carrefourStepLine env ing :: r.2)

def carrefourEvents (env : Env) (items : List String) : List Event :=
  (carrefourLoop env items).1

def carrefourLines (env : Env) (items : List String) : List String :=
  (carrefourLoop env items).2

/-- `results_lines` with its header (main.py line 220). -/
def resultsLines (env : Env) (items : List String) : List String :=
  "🛒 Enlaces de Carrefour por ingrediente:" :: carrefourLines env items

/-- `final_response` (main.py lines 236-241). -/
def finalResponse (env : Env) (items : List String) : String :=
  pyJoin "\n"
    ["🍳 Ingredientes detectados:",
     "- " ++ pyJoin "\n- " items,
     "",
     pyJoin "\n" (resultsLines env items)]

/-- The detected-ingredients chunks streamed after the file write
(main.py lines 214-217). -/
def ingredientChunks (items : List String) : List Event :=
  .streamChunk "🍳 Ingredientes detectados:\n" ::
  (items.map (fun ing => Event.streamChunk ("- " ++ ing ++ "\n")) ++
   [.streamChunk ("\n🗂️ Guardados " ++ toString items.length ++
     " ingredientes en ingredients.txt\n\n")])

/-- The normalised ingredient list obtained from the model content
(main.py lines 172-201). -/
def normalizedOf (content : Option String) : List String :=
  normalizeItems (coerceToList (_extract_json_array (rawContentOf content)))

/-- The events of the successful main flow after the file write
(main.py lines 214-244). -/
def successTrace (env : Env) (items : List String) : List Event :=
  ingredientChunks items ++ carrefourEvents env items ++
  [.completeResponse (finalResponse env items)]

/-- One turn of `process_message` (main.py lines 76-251) as the list of
sink events it emits.  The enclosing `try/except` appears as the
`.error` branches delivering `send_error`; the conversation-store calls
are omitted (per the spec they always succeed and emit nothing). -/
def process_message (data : ChatMessage) (env : Env) : List Event :=
  if pyTruthyOptStr (varsGet data.«variables» "OPENAI_API_KEY") = false then
    [.streamChunk missingKeyMsg, .completeResponse missingKeyMsg]
  else
    .streamChunk analyzingMsg ::
    (if pyLower (pyStrip data.message) ∈ greetings then
      [.streamChunk greetReply, .completeResponse greetReply]
    else
      .llmCall ::
      (match env.llm with
       | .error e => [.sendError (errorWrap e)]
       | .ok content =>
         if normalizedOf content = [] then
           [.streamChunk noIngredientsMsg, .completeResponse noIngredientsMsg]
         else
           match env.fileWrite with
           | .error e => [.sendError (errorWrap e)]
           | .ok _ => successTrace env (normalizedOf content)))

/-! ## search_handler.py: `google_search` (lines 80-147) -/

/-- One entry of the provider's `organic` list, with the fields
`google_search` reads (each may be absent). -/
structure OrganicResult where
  title : Option String
  link : Option String
  snippet : Option String
deriving DecidableEq

/-- The decoded provider response body: the `organic` list when the key
is present. -/
structure SearchResponse where
  organic : Option (List OrganicResult)
deriving DecidableEq

/-- One formatted result entry (search_handler.py line 134). -/
def formatOrganicEntry (i : Nat) (r : OrganicResult) : String :=
  toString i ++ ". **" ++ r.title.getD "No title" ++ "**\n   " ++
  r.snippet.getD "No description available" ++ "\n   [Link](" ++
  r.link.getD "" ++ ")\n"

/-- The string returned by the `except` clause of `google_search`
(lines 144-147). -/
def searchErrString (e : String) : String :=
  "❌ **Search Error:** " ++ "Error performing Google search: " ++ e

/-- Python falsiness of the `variables: list = None` parameter:
`None` and the empty list are falsy. -/
def pyFalsyVars (v : Option (List Variable)) : Bool :=
  match v with
  | none => true
  | some l => l.isEmpty

/-- The `num` field sent in the request payload (line 118). -/
def googleSearchPayloadNum (num_results : Nat) : Nat :=
  min num_results 10

/-- The formatted entries built from the decoded response: the first
`num_results` elements of the `organic` list, 1-indexed (lines 127-134;
an absent `organic` key yields no entries). -/
def googleResultsList (num_results : Nat) (data : SearchResponse) : List String :=
  match data.organic with
  | some org => (org.take num_results).enum.map (fun p => formatOrganicEntry (p.1 + 1) p.2)
  | none => []

/-- `google_search` (search_handler.py lines 80-147).  The whole body sits
inside `try/except`, so each failure - missing variables, missing key, a
failing HTTP call (`http = .error`) - returns the formatted error string
instead of raising. -/
def google_search (query : String) (num_results : Nat)
    («variables» : Option (List Variable)) (http : Except String SearchResponse) : String :=
  if pyFalsyVars «variables» then
    searchErrString "Variables not provided to google_search"
  else if pyTruthyOptStr (varsGet («variables».getD []) "SERPER_API_KEY") = false then
    searchErrString "Serper API key not found in variables. Please add SERPER_API_KEY to your agent configuration."
  else
    match http with
    | .error e => searchErrString e
    | .ok data =>
      if googleResultsList num_results data = [] then
        "🔍 **Search Results for: " ++ query ++ "**\n\nNo results found for your search query."
      else
        "🔍 **Search Results for: " ++ query ++ "**\n\n" ++ pyJoin "\n" (googleResultsList num_results data)

/-! ## search_handler.py: `_parse_menu_items` (lines 149-204) -/

/-- One step of the bullet-stripping loop (lines 165-167): if the line
starts with the marker, drop it and strip again. -/
def bulletStripOne (p : String) (line : String) : String :=
  if p.data.isPrefixOf line.data then pyStrip (String.mk (line.data.drop p.data.length))
  else line

/-- The bullet-stripping loop over the markers
`"- ", "* ", "• ", "· ", "•", "-"` in order, each applied to the current
line. -/
def stripBullets (line : String) : String :=
  bulletStripOne "-"
    (bulletStripOne "•"
      (bulletStripOne "· "
        (bulletStripOne "• "
          (bulletStripOne "* "
            (bulletStripOne "- " line)))))

def isCurrency (c : Char) : Bool :=
  c = '$' || c = '€' || c = '£' || c = '¥'

/-- Match of `[\$€£¥]\s*\d+\.?\d*` at the head of the list, returning
the remainder after the match.  Maximal munch agrees with the regex
engine here because the successive character classes are disjoint. -/
def matchPrice1 : List Char → Option (List Char)
  | [] => none
  | c :: rest =>
    if isCurrency c then
      let r1 := rest.dropWhile pyWs
      if r1.takeWhile Char.isDigit = [] then none
      else
        match r1.dropWhile Char.isDigit with
        | '.' :: r3 => some (r3.dropWhile Char.isDigit)
        | r2 => some r2
    else none

/-- Match of `\d+\.?\d*\s*[\$€£¥]` at the head of the list. -/
def matchPrice2 (cs : List Char) : Option (List Char) :=
  if cs.takeWhile Char.isDigit = [] then none
  else
    let r1 := cs.dropWhile Char.isDigit
    let r2 := match r1 with
      | '.' :: r => r.dropWhile Char.isDigit
      | _ => r1
    match r2.dropWhile pyWs with
    | c :: r4 => if isCurrency c then some r4 else none
    | [] => none

/-- Match of `\$\d+\.?\d*` at the head of the list. -/
def matchPrice3 : List Char → Option (List Char)
  | [] => none
  | c :: rest =>
    if c = '$' then
      if rest.takeWhile Char.isDigit = [] then none
      else
        match rest.dropWhile Char.isDigit with
        | '.' :: r3 => some (r3.dropWhile Char.isDigit)
        | r2 => some r2
    else none

/-- `re.sub(pattern, "", line)`: scan left to right removing every match.
`m` consumes at least one character whenever it fires, so fuel equal to
the list length always completes the scan. -/
def subScanF (m : List Char → Option (List Char)) : Nat → List Char → List Char
  | 0, l => l
  | _ + 1, [] => []
  | fuel + 1, c :: rest =>
    match m (c :: rest) with
    | some rest2 => subScanF m fuel rest2
    | none => c :: subScanF m fuel rest

def reSubRemove (m : List Char → Option (List Char)) (s : String) : String :=
  String.mk (subScanF m s.data.length s.data)

/-- The three price-removal substitutions (lines 175-177), in order. -/
def removePrices (line : String) : String :=
  reSubRemove matchPrice3 (reSubRemove matchPrice2 (reSubRemove matchPrice1 line))

def sectionHeaders : List String :=
  ["appetizers", "entrees", "mains", "desserts", "drinks", "beverages",
   "starters", "salads", "soups", "sides", "specials", "menu", "price"]

def descriptionWords : List String :=
  ["description", "ingredients", "served with", "comes with", "includes"]

/-- A character kept by `re.sub(r"[^a-zA-Z\s]", "", line)`. -/
def letterOrWs (c : Char) : Bool :=
  (('a' ≤ c && c ≤ 'z') || ('A' ≤ c && c ≤ 'Z')) || pyWs c

/-- The per-line body of `_parse_menu_items` up to deduplication
(lines 162-197): strip, strip bullets, drop empty or short lines, remove
prices, drop section-header and description lines (case-insensitively),
drop lines that are mostly non-letters, final strip and length check. -/
def processLine (raw : String) : Option String :=
  if stripBullets (pyStrip raw) = "" ∨ (stripBullets (pyStrip raw)).data.length < 2 then none
  else if sectionHeaders.any (fun h =>
      strContainsSub (pyLower (removePrices (stripBullets (pyStrip raw)))) h) then none
  else if descriptionWords.any (fun w =>
      strContainsSub (pyLower (removePrices (stripBullets (pyStrip raw)))) w) then none
  else if 2 * ((removePrices (stripBullets (pyStrip raw))).data.filter letterOrWs).length <
      (removePrices (stripBullets (pyStrip raw))).data.length then none
  else if pyStrip (removePrices (stripBullets (pyStrip raw))) = "" ∨
      (pyStrip (removePrices (stripBullets (pyStrip raw)))).data.length < 2 then none
  else some (pyStrip (removePrices (stripBullets (pyStrip raw))))

/-- The accumulation loop of `_parse_menu_items` (lines 160-204): `seen`
holds the lines already emitted (exact-match deduplication).  The
per-line body is a parameter (instantiated with `processLine`). -/
def menuLoop (f : String → Option String) : List String → List String → List String
  | [], _ => []
  | raw :: rest, seen =>
    match f raw with
    | none => menuLoop f rest seen
    | some line =>
      if line ∈ seen then menuLoop f rest seen
      else line :: menuLoop f rest (line :: seen)

/-- `_parse_menu_items` (search_handler.py lines 149-204). -/
def _parse_menu_items (menu_text : String) : List String :=
  if menu_text = "" then [] else menuLoop processLine (pySplitLines menu_text) []

/-! ## search_handler.py: `_serper_image_search` (lines 212-255) -/

/-- One entry of the provider's `images` list: the text fields default to
the empty string (`img.get(..., "")`-style reads), the URL fields may be
absent. -/
structure SerperImage where
  title : String
  source : String
  imageUrl : Option String
  thumbnailUrl : Option String
  link : Option String
deriving DecidableEq

/-- The query-biasing step of `_serper_image_search` (line 223). -/
def foodQueryOf (query : String) : String :=
  query ++ " food dish meal recipe"

def foodKeywords : List String :=
  ["food", "dish", "meal", "recipe", "cooking", "restaurant", "kitchen", "chef"]

/-- The keyword filter (lines 244-249): title or source, lowercased,
contains some food keyword. -/
def imageMatchesFood (img : SerperImage) : Bool :=
  foodKeywords.any (fun k =>
    strContainsSub (pyLower img.title) k || strContainsSub (pyLower img.source) k)

/-- `img.get("imageUrl") or img.get("thumbnailUrl") or img.get("link")`
(lines 251 and 255). -/
def imageUrlChain (img : SerperImage) : Option String :=
  pyOrOptStr img.imageUrl (pyOrOptStr img.thumbnailUrl img.link)

/-- The response-processing part of `_serper_image_search`
(lines 236-255): `none` on an empty image list, else the URL chain of the
first keyword-matching image, else the URL chain of the first image. -/
def serperImageSelect (images : List SerperImage) : Option String :=
  match images with
  | [] => none
  | first :: _ =>
    match images.find? imageMatchesFood with
    | some img => imageUrlChain img
    | none => imageUrlChain first

/-- Spec-side description of the image chosen by `serperImageSelect`
("the first image whose title or source text contains a domain keyword;
if no image matches the keyword filter, the first image"). -/
def chosenImage (images : List SerperImage) : Option SerperImage :=
  match images with
  | [] => none
  | first :: _ => some ((images.find? imageMatchesFood).getD first)

/-- Spec-side restatement of `_extract_json_array` as staged attempts
("attempt a direct JSON parse of the full text; on failure parse the
first greedy bracketed substring; on any further failure return an empty
sequence"). -/
def extractStaged (text : String) : JsonValue :=
  match pyJsonLoads text with
  | some v => v
  | none =>
    match bracketSlice text with
    | some sub => (pyJsonLoads sub).getD (.arr [])
    | none => .arr []

/-! ## Concrete fixtures used by witnesses and counterexamples -/

/-- A search provider that knows one Carrefour link and fails otherwise. -/
def exSerper (q : String) : Except String (Option String) :=
  if q = "huevos site:carrefour.es" then .ok (some "https://www.carrefour.es/huevos")
  else .error "timeout"

def exEnvOk : Env := ⟨.ok none, .ok (), fun _ => .ok none⟩

def exEnvLlmFail : Env := ⟨.error "boom", .ok (), fun _ => .ok none⟩

def exEnvMixed : Env := ⟨.ok none, .ok (), exSerper⟩

def exKeyVars : List Variable := [⟨"OPENAI_API_KEY", "sk-test"⟩]

def exData (msg : String) : ChatMessage := ⟨"thread-1", msg, "uuid-1", "gpt-4o", exKeyVars⟩

def exDataNoKey : ChatMessage := ⟨"thread-1", "hola", "uuid-1", "gpt-4o", []⟩

def tortilla5 : List String := ["huevos", "patatas", "cebolla", "aceite de oliva", "sal"]

/-! ## Helper lemmas -/

theorem dedupGo_sublist (key : String → String) :
    ∀ (l seen : List String), (dedupGo key l seen).Sublist l
  | [], _ => List.Sublist.refl _
  | s :: rest, seen => by
    unfold dedupGo
    by_cases h : key s ∈ seen
    · simp only [if_pos h]
      exact (dedupGo_sublist key rest seen).cons s
    · simp only [if_neg h]
      exact (dedupGo_sublist key rest (key s :: seen)).cons₂ s

theorem mem_dedupGo_key_not_seen (key : String → String) :
    ∀ (l seen : List String), ∀ s ∈ dedupGo key l seen, key s ∉ seen
  | [], _ => by intro s hs; simp [dedupGo] at hs
  | a :: rest, seen => by
    intro s hs
    unfold dedupGo at hs
    by_cases h : key a ∈ seen
    · rw [if_pos h] at hs
      exact mem_dedupGo_key_not_seen key rest seen s hs
    · rw [if_neg h] at hs
      rcases List.mem_cons.mp hs with rfl | hs'
      · exact h
      · have := mem_dedupGo_key_not_seen key rest (key a :: seen) s hs'
        intro hcontra
        exact this (List.mem_cons_of_mem _ hcontra)

theorem dedupGo_pairwise (key : String → String) :
    ∀ (l seen : List String), (dedupGo key l seen).Pairwise (fun a b => key a ≠ key b)
  | [], _ => by simp [dedupGo]
  | a :: rest, seen => by
    unfold dedupGo
    by_cases h : key a ∈ seen
    · rw [if_pos h]
      exact dedupGo_pairwise key rest seen
    · rw [if_neg h]
      refine List.Pairwise.cons ?_ (dedupGo_pairwise key rest (key a :: seen))
      intro b hb hab
      have := mem_dedupGo_key_not_seen key rest (key a :: seen) b hb
      exact this (hab ▸ List.mem_cons_self _ _)

theorem normalizeGo_eq_dedupGo : ∀ (items : List JsonValue) (seen : List String),
    normalizeGo items seen =
      dedupGo pyLower ((items.filterMap acceptName).filter (fun s => s != "")) seen
  | [], _ => rfl
  | item :: rest, seen => by
    unfold normalizeGo
    cases ha : acceptName item with
    | none =>
      simp only [List.filterMap_cons, ha]
      exact normalizeGo_eq_dedupGo rest seen
    | some name =>
      simp only [List.filterMap_cons, ha, List.filter_cons]
      by_cases hb : name = ""
      · subst hb
        rw [if_neg (fun h => h.1 rfl)]
        simp only [bne_self_eq_false, Bool.false_eq_true, ite_false]
        exact normalizeGo_eq_dedupGo rest seen
      · have hb' : (name != "") = true := by simpa using hb
        simp only [hb', ite_true]
        by_cases hseen : pyLower name ∈ seen
        · rw [if_neg (fun h => h.2 hseen)]
          unfold dedupGo
          rw [if_pos hseen]
          exact normalizeGo_eq_dedupGo rest seen
        · rw [if_pos ⟨hb, hseen⟩]
          unfold dedupGo
          rw [if_neg hseen]
          rw [normalizeGo_eq_dedupGo rest (pyLower name :: seen)]

theorem menuLoop_eq_dedupGo (f : String → Option String) : ∀ (lines seen : List String),
    menuLoop f lines seen = dedupGo id (lines.filterMap f) seen
  | [], _ => rfl
  | raw :: rest, seen => by
    unfold menuLoop
    cases hp : f raw with
    | none =>
      simp only [List.filterMap_cons, hp]
      exact menuLoop_eq_dedupGo f rest seen
    | some line =>
      simp only [List.filterMap_cons, hp]
      unfold dedupGo
      by_cases hseen : line ∈ seen
      · rw [if_pos hseen, if_pos (by simpa using hseen)]
        exact menuLoop_eq_dedupGo f rest seen
      · rw [if_neg hseen, if_neg (by simpa using hseen)]
        rw [menuLoop_eq_dedupGo f rest (line :: seen)]
        rfl

theorem carrefourLoop_eq (env : Env) : ∀ (items : List String),
    carrefourLoop env items =
      (items.flatMap (carrefourStepEvents env), items.map (carrefourStepLine env))
  | [] => rfl
  | ing :: rest => by
    unfold carrefourLoop
    rw [carrefourLoop_eq env rest]
    simp [List.flatMap_cons]

theorem carrefourStepEvents_not_terminal (env : Env) (ing : String) :
    ∀ e ∈ carrefourStepEvents env ing, isTerminal e = false := by
  intro e he
  unfold carrefourStepEvents at he
  by_cases h : pyTruthyOptStr (carrefourLink env ing) = true
  · simp only [h, if_true, List.mem_cons, List.not_mem_nil, or_false] at he
    rcases he with rfl | rfl | rfl <;> rfl
  · simp only [Bool.not_eq_true] at h
    simp only [h, Bool.false_eq_true, ite_false, List.mem_cons, List.not_mem_nil,
      or_false] at he
    rcases he with rfl | rfl | rfl <;> rfl

theorem carrefourEvents_not_terminal (env : Env) (items : List String) :
    ∀ e ∈ carrefourEvents env items, isTerminal e = false := by
  intro e he
  unfold carrefourEvents at he
  rw [carrefourLoop_eq] at he
  rcases List.mem_flatMap.mp he with ⟨ing, _, hi⟩
  exact carrefourStepEvents_not_terminal env ing e hi

theorem ingredientChunks_not_terminal (items : List String) :
    ∀ e ∈ ingredientChunks items, isTerminal e = false := by
  intro e he
  unfold ingredientChunks at he
  rcases List.mem_cons.mp he with rfl | he'
  · rfl
  rcases List.mem_append.mp he' with hm | hend
  · rcases List.mem_map.mp hm with ⟨i, _, rfl⟩
    rfl
  · have : e = Event.streamChunk ("\n🗂️ Guardados " ++ toString items.length ++
      " ingredientes en ingredients.txt\n\n") := by simpa using hend
    subst this
    rfl

theorem pyJoin_append (sep : String) : ∀ (l1 l2 : List String), l1 ≠ [] → l2 ≠ [] →
    pyJoin sep (l1 ++ l2) = pyJoin sep l1 ++ sep ++ pyJoin sep l2
  | [], _, h, _ => absurd rfl h
  | [a], l2, _, h2 => by
    cases l2 with
    | nil => exact absurd rfl h2
    | cons b t => simp only [List.cons_append, List.nil_append, pyJoin]
  | a :: b :: t, l2, _, h2 => by
    have ih := pyJoin_append sep (b :: t) l2 (by simp) h2
    simp only [List.cons_append] at ih ⊢
    show a ++ sep ++ pyJoin sep (b :: (t ++ l2)) =
      a ++ sep ++ pyJoin sep (b :: t) ++ sep ++ pyJoin sep l2
    rw [ih]
    simp [String.append_assoc]

theorem pyJoin_map_dash : ∀ (items : List String), items ≠ [] →
    "- " ++ pyJoin "\n- " items = pyJoin "\n" (items.map (fun i => "- " ++ i))
  | [], h => absurd rfl h
  | [a], _ => rfl
  | a :: b :: t, _ => by
    have ih := pyJoin_map_dash (b :: t) (by simp)
    simp only [List.map_cons] at ih ⊢
    show "- " ++ (a ++ "\n- " ++ pyJoin "\n- " (b :: t)) =
      "- " ++ a ++ "\n" ++ pyJoin "\n" (("- " ++ b) :: t.map (fun i => "- " ++ i))
    rw [← ih]
    apply String.ext
    simp only [String.data_append]
    have hd : ("\n- " : String).data = ("\n" : String).data ++ ("- " : String).data := rfl
    simp [hd, List.append_assoc]

theorem dropWhile_head_false {α} (p : α → Bool) :
    ∀ (l : List α) {a : α} {rest : List α}, l.dropWhile p = a :: rest → p a = false := by
  intro l
  induction l with
  | nil => intro a rest h; simp at h
  | cons x xs ih =>
    intro a rest h
    rw [List.dropWhile_cons] at h
    by_cases hx : p x = true
    · rw [if_pos hx] at h
      exact ih h
    · rw [if_neg hx] at h
      cases h
      simpa using hx

theorem getLast?_of_suffix {α} {l1 l2 : List α} (h : l1 <:+ l2) (hne : l1 ≠ []) :
    l2.getLast? = l1.getLast? := by
  obtain ⟨pre, rfl⟩ := h
  rw [List.getLast?_append]
  cases hl : l1.getLast? with
  | none => exact absurd (by simpa using hl) hne
  | some a => rfl

/-- Claim C5: the normalisation step accepts an element only if it is a
plain string or an object with a `name` field, trims whitespace, drops
empty results, and deduplicates case-insensitively while preserving
first-seen order: `normalizeItems` is the case-insensitive first-seen
deduplication of the accepted, trimmed, non-blank names; its result has
no blank entries, no two entries equal up to case, and is an ordered
sublist of the accepted names. -/
theorem normalize_items_spec (items : List JsonValue) :
    normalizeItems items =
      dedupGo pyLower ((items.filterMap acceptName).filter (fun s => s != "")) [] ∧
    (∀ s ∈ normalizeItems items, s ≠ "") ∧
    (normalizeItems items).Pairwise (fun a b => pyLower a ≠ pyLower b) ∧
    (normalizeItems items).Sublist (items.filterMap acceptName) := by
  have heq : normalizeItems items =
      dedupGo pyLower ((items.filterMap acceptName).filter (fun s => s != "")) [] :=
    normalizeGo_eq_dedupGo items []
  refine ⟨heq, ?_, ?_, ?_⟩
  · intro s hs
    rw [heq] at hs
    have hmem := (dedupGo_sublist pyLower _ []).subset hs
    have := (List.mem_filter.mp hmem).2
    simpa using this
  · rw [heq]
    exact dedupGo_pairwise pyLower _ []
  · rw [heq]
    exact (dedupGo_sublist pyLower _ []).trans (List.filter_sublist _)

/-- Witness for `normalize_items_spec` at a concrete parsed list: the
blank element is dropped, the case-duplicate is dropped, and the object
form is accepted. -/
theorem normalize_items_spec_witness :
    normalizeItems [JsonValue.str " huevos ", JsonValue.str "HUEVOS",
      JsonValue.str "   ", JsonValue.obj [("name", JsonValue.str "sal")]] =
      ["huevos", "sal"] ∧
    "huevos" ≠ "" := by
  refine ⟨by decide, ?_⟩
  exact (normalize_items_spec [JsonValue.str " huevos ", JsonValue.str "HUEVOS",
      JsonValue.str "   ", JsonValue.obj [("name", JsonValue.str "sal")]]).2.1
    "huevos" (by decide)

/-- Claim C9: `_parse_menu_items` deduplicates lines by exact string
match while preserving first-seen order (its result is the exact-match
first-seen deduplication of the processed lines, duplicate-free and an
ordered sublist of them), and the per-line processing drops every line
whose price-stripped form contains a section-header keyword or a
descriptive-phrase keyword case-insensitively, as well as every line
where fewer than half the characters are letters or whitespace. -/
theorem parse_menu_items_spec (t : String) :
    _parse_menu_items t = dedupGo id ((pySplitLines t).filterMap processLine) [] ∧
    (_parse_menu_items t).Nodup ∧
    (_parse_menu_items t).Sublist ((pySplitLines t).filterMap processLine) ∧
    (∀ raw, (sectionHeaders.any (fun h =>
        strContainsSub (pyLower (removePrices (stripBullets (pyStrip raw)))) h)) = true →
      processLine raw = none) ∧
    (∀ raw, (descriptionWords.any (fun w =>
        strContainsSub (pyLower (removePrices (stripBullets (pyStrip raw)))) w)) = true →
      processLine raw = none) ∧
    (∀ raw, 2 * ((removePrices (stripBullets (pyStrip raw))).data.filter letterOrWs).length <
        (removePrices (stripBullets (pyStrip raw))).data.length →
      processLine raw = none) := by
  have heq : _parse_menu_items t = dedupGo id ((pySplitLines t).filterMap processLine) [] := by
    unfold _parse_menu_items
    by_cases ht : t = ""
    · subst ht
      rw [if_pos rfl]
      rfl
    · rw [if_neg ht]
      exact menuLoop_eq_dedupGo processLine (pySplitLines t) []
  refine ⟨heq, ?_, ?_, ?_, ?_, ?_⟩
  · rw [heq]
    exact dedupGo_pairwise id _ []
  · rw [heq]
    exact dedupGo_sublist id _ []
  · intro raw h
    unfold processLine
    by_cases h1 : stripBullets (pyStrip raw) = "" ∨ (stripBullets (pyStrip raw)).data.length < 2
    · rw [if_pos h1]
    · rw [if_neg h1, if_pos h]
  · intro raw h
    unfold processLine
    by_cases h1 : stripBullets (pyStrip raw) = "" ∨ (stripBullets (pyStrip raw)).data.length < 2
    · rw [if_pos h1]
    · rw [if_neg h1]
      by_cases h2 : (sectionHeaders.any (fun h =>
          strContainsSub (pyLower (removePrices (stripBullets (pyStrip raw)))) h)) = true
      · rw [if_pos h2]
      · rw [if_neg h2, if_pos h]
  · intro raw h
    unfold processLine
    by_cases h1 : stripBullets (pyStrip raw) = "" ∨ (stripBullets (pyStrip raw)).data.length < 2
    · rw [if_pos h1]
    · rw [if_neg h1]
      by_cases h2 : (sectionHeaders.any (fun h =>
          strContainsSub (pyLower (removePrices (stripBullets (pyStrip raw)))) h)) = true
      · rw [if_pos h2]
      · rw [if_neg h2]
        by_cases h3 : (descriptionWords.any (fun w =>
            strContainsSub (pyLower (removePrices (stripBullets (pyStrip raw)))) w)) = true
        · rw [if_pos h3]
        · rw [if_neg h3, if_pos h]

/-- Witness for `parse_menu_items_spec` on concrete lines: a
section-header line, a descriptive line and a mostly-symbols line are
all dropped, and a duplicated menu is deduplicated in order. -/
theorem parse_menu_items_spec_witness :
    processLine " Desserts menu " = none ∧
    processLine "xx served with yy" = none ∧
    processLine "a% b& c!!!!" = none ∧
    _parse_menu_items "Pizza\nPasta\nPizza" = ["Pizza", "Pasta"] := by
  refine ⟨(parse_menu_items_spec "").2.2.2.1 " Desserts menu " (by decide),
          (parse_menu_items_spec "").2.2.2.2.1 "xx served with yy" (by decide),
          (parse_menu_items_spec "").2.2.2.2.2 "a% b& c!!!!" (by decide),
          by decide⟩

/-- Counterexample to Claim C4 as stated: on the well-formed non-array
JSON document `"5"` the direct parse succeeds with a non-array value and
`_extract_json_array` returns it unchanged, not the empty sequence the
claim requires for a text with no bracketed array. -/
theorem extract_json_array_counterexample :
    _extract_json_array "5" = JsonValue.int 5 ∧
    _extract_json_array "5" ≠ JsonValue.arr [] := by
  refine ⟨rfl, ?_⟩
  intro h
  exact JsonValue.noConfusion h

/-- Claim C4 (amended): `_extract_json_array` never raises; it attempts a
direct JSON parse of the full text and returns whatever value results
(not necessarily an array - the caller discards non-arrays); on parse
failure it parses the first greedy bracketed substring (from the first
`[` with a `]` after it through the last `]`, across newlines); on any
further failure - including text with no such bracket pair - it returns
an empty sequence. -/
theorem extract_json_array_staged_spec (t : String) :
    _extract_json_array t = extractStaged t ∧
    (pyJsonLoads t = none → bracketSlice t = none →
      _extract_json_array t = JsonValue.arr []) ∧
    ((∀ c ∈ t.data, c ≠ '[') → pyJsonLoads t = none →
      _extract_json_array t = JsonValue.arr []) ∧
    (∀ sub, bracketSlice t = some sub →
      ∃ pre post, t.data = pre ++ sub.data ++ post ∧
        (∀ c ∈ pre, c ≠ '[') ∧ (∀ c ∈ post, c ≠ ']') ∧
        sub.data.head? = some '[' ∧ sub.data.getLast? = some ']') := by
  refine ⟨?_, ?_, ?_, ?_⟩
  · unfold _extract_json_array extractStaged
    cases hp : pyJsonLoads t with
    | some v => rfl
    | none =>
      cases hb : bracketSlice t with
      | none => rfl
      | some sub => cases hps : pyJsonLoads sub <;> simp [hps]
  · intro h1 h2
    unfold _extract_json_array
    rw [h1, h2]
  · intro hc h1
    have hb : bracketSlice t = none := by
      unfold bracketSlice
      have : t.data.dropWhile (fun c => c != '[') = [] :=
        List.dropWhile_eq_nil_iff.mpr (fun x hx => by simpa using hc x hx)
      rw [this]
    unfold _extract_json_array
    rw [h1, hb]
  · intro sub hsub
    unfold bracketSlice at hsub
    split at hsub
    · exact absurd hsub (by simp)
    · rename_i b tail hd
      split at hsub
      · exact absurd hsub (by simp)
      · rename_i r rtail hr
        have hsub' : sub = String.mk ((r :: rtail).reverse) := (Option.some.inj hsub).symm
        subst hsub'
        have hsplit : t.data.takeWhile (fun c => c != '[') ++ (b :: tail) = t.data := by
          rw [← hd]
          exact List.takeWhile_append_dropWhile _ _
        have hsplit2 : (b :: tail).reverse =
            ((b :: tail).reverse.takeWhile (fun c => c != ']')) ++ (r :: rtail) := by
          rw [← hr]
          exact (List.takeWhile_append_dropWhile _ _).symm
        have hfb : (b :: tail) =
            (r :: rtail).reverse ++ ((b :: tail).reverse.takeWhile (fun c => c != ']')).reverse := by
          have h2 := congrArg List.reverse hsplit2
          simpa [List.reverse_append] using h2
        refine ⟨t.data.takeWhile (fun c => c != '['),
          ((b :: tail).reverse.takeWhile (fun c => c != ']')).reverse, ?_, ?_, ?_, ?_, ?_⟩
        · calc t.data = t.data.takeWhile (fun c => c != '[') ++ (b :: tail) := hsplit.symm
            _ = t.data.takeWhile (fun c => c != '[') ++
                ((r :: rtail).reverse ++
                  ((b :: tail).reverse.takeWhile (fun c => c != ']')).reverse) :=
              congrArg _ hfb
            _ = t.data.takeWhile (fun c => c != '[') ++ (String.mk ((r :: rtail).reverse)).data ++
                ((b :: tail).reverse.takeWhile (fun c => c != ']')).reverse := by
              rw [List.append_assoc]
        · intro c hc
          have := List.mem_takeWhile_imp hc
          simpa using this
        · intro c hc
          have hc' := List.mem_reverse.mp hc
          have := List.mem_takeWhile_imp hc'
          simpa using this
        · show ((r :: rtail).reverse).head? = some '['
          rw [List.head?_reverse]
          have hsuf : (r :: rtail) <:+ (b :: tail).reverse := hr ▸ List.dropWhile_suffix _
          have hlast := getLast?_of_suffix hsuf (by simp)
          rw [← hlast, List.getLast?_reverse]
          have hb' : b = '[' := by
            simpa using dropWhile_head_false (fun c => c != '[') t.data hd
          simp [hb']
        · show ((r :: rtail).reverse).getLast? = some ']'
          rw [List.getLast?_reverse]
          have hr' : r = ']' := by
            simpa using dropWhile_head_false (fun c => c != ']') (b :: tail).reverse hr
          simp [hr']

/-- Witness for `extract_json_array_staged_spec`: bracket-free non-JSON
text yields the empty array, and on `"x [1] y"` the bracketed substring
is `"[1]"` with the claimed position properties. -/
theorem extract_json_array_staged_spec_witness :
    _extract_json_array "abc" = JsonValue.arr [] ∧
    (∃ pre post, ("x [1] y" : String).data = pre ++ ("[1]" : String).data ++ post ∧
      (∀ c ∈ pre, c ≠ '[') ∧ (∀ c ∈ post, c ≠ ']') ∧
      ("[1]" : String).data.head? = some '[' ∧
      ("[1]" : String).data.getLast? = some ']') := by
  refine ⟨(extract_json_array_staged_spec "abc").2.2.1 (by decide) (by rfl), ?_⟩
  exact (extract_json_array_staged_spec "x [1] y").2.2.2 "[1]" (by rfl)

/-- Counterexample to Claim C8 as stated: a provider response with one
image whose title matches the food-keyword filter but which carries no
`imageUrl`, `thumbnailUrl` or `link` makes the selection return `none`
although the provider yielded a non-zero number of images, refuting the
claimed "none if and only if zero images". -/
theorem serper_image_none_counterexample :
    serperImageSelect [⟨"good food photo", "", none, none, none⟩] = none ∧
    ([⟨"good food photo", "", none, none, none⟩] : List SerperImage) ≠ [] := by
  refine ⟨rfl, ?_⟩
  simp

/-- Claim C8 (amended): the image selection returns the URL chain
(`imageUrl` or `thumbnailUrl` or `link`, Python truthiness) of the first
image whose title or source contains a food keyword, or of the first
image when none matches; it returns none if and only if the provider
yields zero images or the chosen image has no truthy URL field in the
chain (the chain may also end in an empty string, which is likewise not
a URL). -/
theorem serper_image_select_spec (images : List SerperImage) :
    serperImageSelect images = (chosenImage images).bind imageUrlChain ∧
    (serperImageSelect images = none ↔ images = [] ∨
      ∃ img, chosenImage images = some img ∧ imageUrlChain img = none) ∧
    (∀ img, images.find? imageMatchesFood = some img →
      serperImageSelect images = imageUrlChain img) ∧
    (∀ first rest, images = first :: rest → images.find? imageMatchesFood = none →
      serperImageSelect images = imageUrlChain first) := by
  cases images with
  | nil =>
    refine ⟨rfl, by simp [serperImageSelect, chosenImage], ?_, ?_⟩
    · intro img h
      simp at h
    · intro first rest h
      exact absurd h (by simp)
  | cons a rest =>
    cases hf : (a :: rest).find? imageMatchesFood with
    | some img =>
      refine ⟨?_, ?_, ?_, ?_⟩
      · simp [serperImageSelect, chosenImage, hf]
      · simp [serperImageSelect, chosenImage, hf]
      · intro img2 h2
        cases h2
        simp [serperImageSelect, hf]
      · intro first rest2 heq hnone
        exact absurd hnone (by simp)
    | none =>
      refine ⟨?_, ?_, ?_, ?_⟩
      · simp [serperImageSelect, chosenImage, hf]
      · simp [serperImageSelect, chosenImage, hf]
      · intro img2 h2
        exact absurd h2 (by simp)
      · intro first rest2 heq hnone
        cases heq
        simp [serperImageSelect, hf]

/-- Witness for `serper_image_select_spec`: with a non-matching first
image and a matching second, the second image's URL is returned; with no
matching image the first image's URL is returned. -/
theorem serper_image_select_spec_witness :
    serperImageSelect [⟨"blog", "", some "u1", none, none⟩,
      ⟨"tasty recipe", "", some "u2", none, none⟩] = some "u2" ∧
    serperImageSelect [⟨"blog", "", some "u1", none, none⟩,
      ⟨"zzz", "", some "u2", none, none⟩] = some "u1" := by
  constructor
  · have h := (serper_image_select_spec [⟨"blog", "", some "u1", none, none⟩,
      ⟨"tasty recipe", "", some "u2", none, none⟩]).2.2.1
      ⟨"tasty recipe", "", some "u2", none, none⟩ (by rfl)
    exact h.trans (by rfl)
  · have h := (serper_image_select_spec [⟨"blog", "", some "u1", none, none⟩,
      ⟨"zzz", "", some "u2", none, none⟩]).2.2.2
      ⟨"blog", "", some "u1", none, none⟩ [⟨"zzz", "", some "u2", none, none⟩] rfl (by rfl)
    exact h.trans (by rfl)

/-- Claim C10: `google_search` never raises - for every query, result
count, variables value (including missing or empty) and HTTP outcome it
returns a string, which is either the formatted error string (every
failure, including the missing-credential condition, is caught inside
the function) or a formatted results string. -/
theorem google_search_total_spec (query : String) (n : Nat)
    (vars? : Option (List Variable)) (http : Except String SearchResponse) :
    ((∃ rest, google_search query n vars? http = "❌ **Search Error:** " ++ rest) ∨
     (∃ rest, google_search query n vars? http = "🔍 **Search Results for: " ++ rest)) ∧
    (pyFalsyVars vars? = true →
      google_search query n vars? http =
        searchErrString "Variables not provided to google_search") ∧
    (pyFalsyVars vars? = false →
      pyTruthyOptStr (varsGet (vars?.getD []) "SERPER_API_KEY") = false →
      google_search query n vars? http = searchErrString
        "Serper API key not found in variables. Please add SERPER_API_KEY to your agent configuration.") ∧
    (∀ e, http = .error e → pyFalsyVars vars? = false →
      pyTruthyOptStr (varsGet (vars?.getD []) "SERPER_API_KEY") = true →
      google_search query n vars? http = searchErrString e) := by
  refine ⟨?_, ?_, ?_, ?_⟩
  · unfold google_search
    by_cases hv : pyFalsyVars vars? = true
    · rw [if_pos hv]
      exact Or.inl ⟨_, String.append_assoc _ _ _⟩
    · rw [if_neg hv]
      by_cases hk : pyTruthyOptStr (varsGet (vars?.getD []) "SERPER_API_KEY") = false
      · rw [if_pos hk]
        exact Or.inl ⟨_, String.append_assoc _ _ _⟩
      · rw [if_neg hk]
        split
        · exact Or.inl ⟨_, String.append_assoc _ _ _⟩
        · split
          · exact Or.inr ⟨_, String.append_assoc _ _ _⟩
          · rename_i data hne
            exact Or.inr ⟨query ++ ("**\n\n" ++ pyJoin "\n" (googleResultsList n data)),
              by simp [String.append_assoc]⟩
  · intro hv
    unfold google_search
    rw [if_pos hv]
  · intro hv hk
    unfold google_search
    rw [if_neg (by simp [hv]), if_pos hk]
  · intro e he hv hk
    subst he
    unfold google_search
    rw [if_neg (by simp [hv]), if_neg (by simp [hk])]

/-- Witness for `google_search_total_spec`: the three failure modes at
concrete inputs, each rendered as the returned error string. -/
theorem google_search_total_spec_witness :
    google_search "q" 5 none (.ok ⟨none⟩) =
      searchErrString "Variables not provided to google_search" ∧
    google_search "q" 5 (some [⟨"SERPER_API_KEY", ""⟩]) (.ok ⟨none⟩) = searchErrString
      "Serper API key not found in variables. Please add SERPER_API_KEY to your agent configuration." ∧
    google_search "q" 5 (some [⟨"SERPER_API_KEY", "k"⟩]) (.error "500 Server Error") =
      searchErrString "500 Server Error" := by
  refine ⟨(google_search_total_spec "q" 5 none (.ok ⟨none⟩)).2.1 (by rfl),
    (google_search_total_spec "q" 5 (some [⟨"SERPER_API_KEY", ""⟩]) (.ok ⟨none⟩)).2.2.1
      (by rfl) (by rfl),
    (google_search_total_spec "q" 5 (some [⟨"SERPER_API_KEY", "k"⟩])
      (.error "500 Server Error")).2.2.2 "500 Server Error" rfl (by rfl) (by rfl)⟩

/-- Claim C2: a turn whose credential set has no `OPENAI_API_KEY` (absent
or empty, hence falsy) streams the fixed credential-missing message,
completes the response with that same message and stops; the
error-delivery path is never taken for this condition. -/
theorem process_message_missing_key (data : ChatMessage) (env : Env)
    (h : pyTruthyOptStr (varsGet data.«variables» "OPENAI_API_KEY") = false) :
    process_message data env =
      [.streamChunk missingKeyMsg, .completeResponse missingKeyMsg] ∧
    (∀ m, Event.sendError m ∉ process_message data env) ∧
    Event.llmCall ∉ process_message data env := by
  have heq : process_message data env =
      [.streamChunk missingKeyMsg, .completeResponse missingKeyMsg] := by
    unfold process_message
    rw [if_pos h]
  refine ⟨heq, ?_, ?_⟩
  · intro m hm
    rw [heq] at hm
    simp at hm
  · intro hm
    rw [heq] at hm
    simp at hm

/-- Witness for `process_message_missing_key` at a message with an empty
variable list. -/
theorem process_message_missing_key_witness :
    pyTruthyOptStr (varsGet exDataNoKey.«variables» "OPENAI_API_KEY") = false ∧
    process_message exDataNoKey exEnvOk =
      [.streamChunk missingKeyMsg, .completeResponse missingKeyMsg] := by
  exact ⟨by rfl, (process_message_missing_key exDataNoKey exEnvOk (by rfl)).1⟩

/-- Counterexample to Claim C3 as stated: on the inbound message
`"hello"` (with a model key present) the turn streams two chunks - the
fixed processing acknowledgment emitted before the greeting check, then
the canned greeting - so the claimed "exactly one streamed chunk" is
false, although the completion does carry the greeting text. -/
theorem greeting_stream_counterexample :
    process_message (exData "hello") exEnvOk =
      [.streamChunk analyzingMsg, .streamChunk greetReply,
       .completeResponse greetReply] ∧
    (process_message (exData "hello") exEnvOk).countP isStreamChunk = 2 ∧
    (process_message (exData "hello") exEnvOk).countP isStreamChunk ≠ 1 := by
  refine ⟨by rfl, by rfl, ?_⟩
  intro h
  rw [(by rfl : (process_message (exData "hello") exEnvOk).countP isStreamChunk = 2)] at h
  exact absurd h (by decide)

/-- Claim C3 (amended): a message whose trimmed, lowercased text is one
of the fixed greeting phrases short-circuits the turn with exactly two
streamed chunks - the fixed processing acknowledgment, then the canned
greeting - followed by one `complete_response` with the greeting text,
and never invokes the language model or the search provider. -/
theorem greeting_short_circuit (data : ChatMessage) (env : Env)
    (hk : pyTruthyOptStr (varsGet data.«variables» "OPENAI_API_KEY") = true)
    (hg : pyLower (pyStrip data.message) ∈ greetings) :
    process_message data env =
      [.streamChunk analyzingMsg, .streamChunk greetReply,
       .completeResponse greetReply] ∧
    (process_message data env).countP isStreamChunk = 2 ∧
    (process_message data env).countP isTerminal = 1 ∧
    Event.llmCall ∉ process_message data env ∧
    (∀ q, Event.searchCall q ∉ process_message data env) := by
  have heq : process_message data env =
      [.streamChunk analyzingMsg, .streamChunk greetReply,
       .completeResponse greetReply] := by
    unfold process_message
    rw [if_neg (by simp [hk]), if_pos hg]
  refine ⟨heq, by rw [heq]; rfl, by rw [heq]; rfl, ?_, ?_⟩
  · intro hm
    rw [heq] at hm
    simp at hm
  · intro q hm
    rw [heq] at hm
    simp at hm

/-- Witness for `greeting_short_circuit` at the message `"  HOLA "`
(case and whitespace insensitive). -/
theorem greeting_short_circuit_witness :
    pyTruthyOptStr (varsGet (exData "  HOLA ").«variables» "OPENAI_API_KEY") = true ∧
    pyLower (pyStrip "  HOLA ") ∈ greetings ∧
    process_message (exData "  HOLA ") exEnvOk =
      [.streamChunk analyzingMsg, .streamChunk greetReply,
       .completeResponse greetReply] := by
  refine ⟨by rfl, by decide, ?_⟩
  exact (greeting_short_circuit (exData "  HOLA ") exEnvOk (by rfl) (by decide)).1

theorem pyJoin_cons_ne (sep a : String) (l : List String) (h : l ≠ []) :
    pyJoin sep (a :: l) = a ++ sep ++ pyJoin sep l := by
  cases l with
  | nil => exact absurd rfl h
  | cons b t => rfl

/-- Claim C6: a search failure for a single item is caught and rendered
as "No encontrado" for that item only; the loop still emits a per-item
progress chunk and a per-item result chunk for every item, produces one
results line per item in order, and never emits a terminal event (so the
failure aborts neither the loop nor the turn). -/
theorem carrefour_search_failure_isolated (env : Env) (items : List String)
    (ing : String) (e : String) (hmem : ing ∈ items)
    (hfail : env.serper (carrefourQuery ing) = .error e) :
    carrefourStepLine env ing = "- " ++ ing ++ ": No encontrado" ∧
    carrefourStepEvents env ing =
      [.streamChunk ("🔎 Buscando en Carrefour: " ++ ing ++ "\n"),
       .searchCall (carrefourQuery ing),
       .streamChunk ("➡️ " ++ ing ++ ": No encontrado\n")] ∧
    carrefourLines env items = items.map (carrefourStepLine env) ∧
    ("- " ++ ing ++ ": No encontrado") ∈ carrefourLines env items ∧
    (∀ j ∈ items, Event.streamChunk ("🔎 Buscando en Carrefour: " ++ j ++ "\n") ∈
      carrefourEvents env items) ∧
    (∀ j ∈ items, ∃ s, Event.streamChunk ("➡️ " ++ j ++ ": " ++ s ++ "\n") ∈
      carrefourEvents env items) ∧
    (∀ ev ∈ carrefourEvents env items, isTerminal ev = false) := by
  have hL : carrefourLink env ing = none := by
    unfold carrefourLink
    rw [hfail]
  have hT : pyTruthyOptStr (carrefourLink env ing) = false := by
    rw [hL]
    rfl
  have hline : carrefourStepLine env ing = "- " ++ ing ++ ": No encontrado" := by
    simp [carrefourStepLine, hT]
  have hlines : carrefourLines env items = items.map (carrefourStepLine env) := by
    unfold carrefourLines
    rw [carrefourLoop_eq]
  refine ⟨hline, by simp [carrefourStepEvents, hT], hlines, ?_, ?_, ?_,
    carrefourEvents_not_terminal env items⟩
  · rw [hlines]
    exact List.mem_map.mpr ⟨ing, hmem, hline⟩
  · intro j hj
    unfold carrefourEvents
    rw [carrefourLoop_eq]
    refine List.mem_flatMap.mpr ⟨j, hj, ?_⟩
    unfold carrefourStepEvents
    exact List.mem_cons_self _ _
  · intro j hj
    unfold carrefourEvents
    rw [carrefourLoop_eq]
    by_cases ht : pyTruthyOptStr (carrefourLink env j) = true
    · refine ⟨(carrefourLink env j).getD "", List.mem_flatMap.mpr ⟨j, hj, ?_⟩⟩
      simp [carrefourStepEvents, ht]
    · refine ⟨"No encontrado", List.mem_flatMap.mpr ⟨j, hj, ?_⟩⟩
      have hstr : ("➡️ " ++ j ++ ": " ++ "No encontrado" ++ "\n") =
          ("➡️ " ++ j ++ ": No encontrado\n") := by
        apply String.ext
        have hc : (": " : String).data ++ (("No encontrado" : String).data ++
            ("\n" : String).data) = (": No encontrado\n" : String).data := rfl
        simp [String.data_append, List.append_assoc, hc]
      rw [hstr]
      simp only [Bool.not_eq_true] at ht
      simp [carrefourStepEvents, ht]

/-- Witness for `carrefour_search_failure_isolated`: with a provider that
fails for `"patatas"` but knows a link for `"huevos"`, the failed item is
rendered "No encontrado" while the other keeps its link and the loop
produces both lines. -/
theorem carrefour_search_failure_isolated_witness :
    carrefourStepLine exEnvMixed "patatas" = "- patatas: No encontrado" ∧
    carrefourLines exEnvMixed ["huevos", "patatas"] =
      ["- huevos: https://www.carrefour.es/huevos", "- patatas: No encontrado"] := by
  have h := carrefour_search_failure_isolated exEnvMixed ["huevos", "patatas"]
    "patatas" "timeout" (by simp) (by rfl)
  refine ⟨h.1.trans (by rfl), ?_⟩
  rw [h.2.2.1]
  rfl

/-- Claim C7: the final response is composed deterministically with fixed
ordering - its text is the newline-join of a header, one item line per
item (in item order), a blank separator, the results header, and one
link-or-"No encontrado" line per item in the same item order; the results
section has exactly one line per item plus its header. -/
theorem final_response_structure (env : Env) (items : List String) (h : items ≠ []) :
    finalResponse env items = pyJoin "\n"
      (["🍳 Ingredientes detectados:"] ++ items.map (fun i => "- " ++ i) ++ [""] ++
       ["🛒 Enlaces de Carrefour por ingrediente:"] ++
       items.map (carrefourStepLine env)) ∧
    resultsLines env items =
      "🛒 Enlaces de Carrefour por ingrediente:" :: items.map (carrefourStepLine env) ∧
    (resultsLines env items).length = items.length + 1 := by
  have hm1 : items.map (fun i => "- " ++ i) ≠ [] := by simp [h]
  have hm2 : items.map (carrefourStepLine env) ≠ [] := by simp [h]
  have hres : resultsLines env items =
      "🛒 Enlaces de Carrefour por ingrediente:" :: items.map (carrefourStepLine env) := by
    unfold resultsLines carrefourLines
    rw [carrefourLoop_eq]
  refine ⟨?_, hres, by rw [hres]; simp⟩
  unfold finalResponse
  rw [hres]
  rw [pyJoin_map_dash items h]
  rw [pyJoin_append "\n"
    (["🍳 Ingredientes detectados:"] ++ items.map (fun i => "- " ++ i) ++ [""] ++
      ["🛒 Enlaces de Carrefour por ingrediente:"])
    (items.map (carrefourStepLine env)) (by simp) hm2]
  rw [pyJoin_append "\n"
    (["🍳 Ingredientes detectados:"] ++ items.map (fun i => "- " ++ i) ++ [""])
    ["🛒 Enlaces de Carrefour por ingrediente:"] (by simp) (by simp)]
  rw [pyJoin_append "\n"
    (["🍳 Ingredientes detectados:"] ++ items.map (fun i => "- " ++ i))
    [""] (by simp) (by simp)]
  rw [pyJoin_append "\n" ["🍳 Ingredientes detectados:"]
    (items.map (fun i => "- " ++ i)) (by simp) hm1]
  rw [pyJoin_cons_ne "\n" "🛒 Enlaces de Carrefour por ingrediente:"
    (items.map (carrefourStepLine env)) hm2]
  simp only [pyJoin]
  apply String.ext
  simp [String.data_append, List.append_assoc, show ("" : String).data = [] from rfl]

/-- Witness for `final_response_structure` on the tortilla scenario: the
model's five-ingredient reply normalises to exactly those five items,
and the composed response has the items section and one result line per
item (five lines plus the results header). -/
theorem final_response_structure_witness :
    normalizedOf (some "[\"huevos\",\"patatas\",\"cebolla\",\"aceite de oliva\",\"sal\"]") =
      tortilla5 ∧
    finalResponse exEnvMixed tortilla5 = pyJoin "\n"
      (["🍳 Ingredientes detectados:"] ++ tortilla5.map (fun i => "- " ++ i) ++ [""] ++
       ["🛒 Enlaces de Carrefour por ingrediente:"] ++
       tortilla5.map (carrefourStepLine exEnvMixed)) ∧
    (resultsLines exEnvMixed tortilla5).length = 6 := by
  have h := final_response_structure exEnvMixed tortilla5 (by decide)
  refine ⟨by rfl, h.1, ?_⟩
  rw [h.2.2]
  rfl

/-- Claim C1: every turn notifies the caller exactly once through a
terminal sink call - the event trace contains exactly one
`complete_response`-or-`send_error` event, that event is the last one,
and when the turn reaches the language-model call and that call fails,
the notification is the `send_error` carrying the wrapped error, never a
completion. -/
theorem process_message_terminal_once (data : ChatMessage) (env : Env) :
    (process_message data env).countP isTerminal = 1 ∧
    (∃ front lastEv, process_message data env = front ++ [lastEv] ∧
      isTerminal lastEv = true ∧ front.countP isTerminal = 0) ∧
    (∀ m, env.llm = .error m → Event.llmCall ∈ process_message data env →
      Event.sendError (errorWrap m) ∈ process_message data env ∧
      (∀ s, Event.completeResponse s ∉ process_message data env)) := by
  unfold process_message
  split
  · refine ⟨by rfl, ⟨[.streamChunk missingKeyMsg], .completeResponse missingKeyMsg,
      rfl, rfl, rfl⟩, ?_⟩
    intro m hm hmem
    simp at hmem
  · split
    · refine ⟨by rfl, ⟨[.streamChunk analyzingMsg, .streamChunk greetReply],
        .completeResponse greetReply, rfl, rfl, rfl⟩, ?_⟩
      intro m hm hmem
      simp at hmem
    · split
      · rename_i e hllm
        refine ⟨by rfl, ⟨[.streamChunk analyzingMsg, .llmCall],
          .sendError (errorWrap e), rfl, rfl, rfl⟩, ?_⟩
        intro m hm hmem
        rw [hllm] at hm
        cases hm
        exact ⟨by simp, by intro s hs; simp at hs⟩
      · rename_i content hllm
        split
        · refine ⟨by rfl, ⟨[.streamChunk analyzingMsg, .llmCall,
            .streamChunk noIngredientsMsg], .completeResponse noIngredientsMsg,
            rfl, rfl, rfl⟩, ?_⟩
          intro m hm hmem
          rw [hllm] at hm
          exact absurd hm (by simp)
        · split
          · rename_i e hfw
            refine ⟨by rfl, ⟨[.streamChunk analyzingMsg, .llmCall],
              .sendError (errorWrap e), rfl, rfl, rfl⟩, ?_⟩
            intro m hm hmem
            rw [hllm] at hm
            exact absurd hm (by simp)
          · rename_i u hfw
            have hic : (ingredientChunks (normalizedOf content)).countP isTerminal = 0 :=
              List.countP_eq_zero.mpr (fun a ha => by
                rw [ingredientChunks_not_terminal (normalizedOf content) a ha]
                simp)
            have hce : (carrefourEvents env (normalizedOf content)).countP isTerminal = 0 :=
              List.countP_eq_zero.mpr (fun a ha => by
                rw [carrefourEvents_not_terminal env (normalizedOf content) a ha]
                simp)
            have hst : (successTrace env (normalizedOf content)).countP isTerminal = 1 := by
              unfold successTrace
              rw [List.countP_append, List.countP_append, hic, hce]
              rfl
            refine ⟨?_, ?_, ?_⟩
            · rw [List.countP_cons, List.countP_cons, hst]
              rfl
            · refine ⟨.streamChunk analyzingMsg :: .llmCall ::
                (ingredientChunks (normalizedOf content) ++
                 carrefourEvents env (normalizedOf content)),
                .completeResponse (finalResponse env (normalizedOf content)),
                by simp [successTrace, List.append_assoc], rfl, ?_⟩
              rw [List.countP_cons, List.countP_cons, List.countP_append, hic, hce]
              rfl
            · intro m hm hmem
              rw [hllm] at hm
              exact absurd hm (by simp)

/-- Witness for `process_message_terminal_once`: a turn whose model call
fails is reported through `send_error` with the wrapped message, and
still notifies exactly once. -/
theorem process_message_terminal_once_witness :
    (process_message (exData "arroz con pollo") exEnvLlmFail).countP isTerminal = 1 ∧
    Event.sendError (errorWrap "boom") ∈
      process_message (exData "arroz con pollo") exEnvLlmFail := by
  have h := process_message_terminal_once (exData "arroz con pollo") exEnvLlmFail
  exact ⟨h.1, (h.2.2 "boom" rfl (by decide)).1⟩
